import Mathlib

/-!
Verification development for the Diagnosys front-end (`script.js`).

The file shallowly embeds the CSV normalizer `parseCSV` (script.js lines
27-93), the search filter `filterData` (lines 220-227) and the fetch/load
pair `fetchData` / `fetchAndLoadData` (lines 96-133) as executable Lean
definitions over `String` (a list of characters), and proves the spec's
claims about them.

JavaScript string primitives used by the code are modelled character by
character: `split` with a one-character separator, `trim`, `toLowerCase`
(the data and queries are ASCII, so the ASCII case mapping is used), the
regex replacements `\s+ -> ''` and `[^a-z0-9] -> ''`, and `includes`.
-/

namespace Diagnosys

/-- Whitespace characters of ECMAScript (`WhiteSpace` and `LineTerminator`),
the class trimmed by `String.prototype.trim` and matched by the regex `\s`. -/
def isJsWhitespace (c : Char) : Bool :=
  ['\u0020', '\t', '\n', '\r', '\x0b', '\x0c', '\u00a0', '\u1680',
   '\u2000', '\u2001', '\u2002', '\u2003', '\u2004', '\u2005', '\u2006',
   '\u2007', '\u2008', '\u2009', '\u200a', '\u2028', '\u2029', '\u202f',
   '\u205f', '\u3000', '\ufeff'].contains c

/-- Model of `String.prototype.trim`: drop leading and trailing whitespace. -/
def jsTrim (s : String) : String :=
  ⟨((s.toList.dropWhile isJsWhitespace).reverse.dropWhile isJsWhitespace).reverse⟩

/-- Model of `String.prototype.toLowerCase` on the ASCII range (the
character data this application handles). -/
def jsToLower (s : String) : String :=
  ⟨s.toList.map Char.toLower⟩

/-- Model of `.replace(/\s+/g, '')`: delete every whitespace character. -/
def stripWs (s : String) : String :=
  ⟨s.toList.filter (fun c => !isJsWhitespace c)⟩

/-- Characters kept by `.replace(/[^a-z0-9]/g, '')`. -/
def isLowerAlnum (c : Char) : Bool :=
  ('a' ≤ c && c ≤ 'z') || ('0' ≤ c && c ≤ '9')

/-- Model of `.replace(/[^a-z0-9]/g, '')`: keep only lowercase letters and
digits. -/
def stripNonAlnum (s : String) : String :=
  ⟨s.toList.filter isLowerAlnum⟩

/-- One step of `String.prototype.split` with a one-character separator,
over the character list. `splitChar sep l` never returns `[]`
(the fold starts from `[[]]`). -/
def splitChar (sep : Char) (l : List Char) : List (List Char) :=
  l.foldr
    (fun c acc =>
      if c = sep then [] :: acc
      else
        match acc with
        | [] => [[c]]
        | x :: xs => (c :: x) :: xs)
    [[]]

/-- Model of `String.prototype.split` with a one-character separator
(`split('\n')` and `split(',')` in the source). `jsSplit "" sep = [""]`,
as in JavaScript. -/
def jsSplit (s : String) (sep : Char) : List String :=
  (splitChar sep s.toList).map (fun l => ⟨l⟩)

/-- The cleaning applied to every header cell and to every cell of a row
fingerprint (script.js lines 33-35, 56-58, 71-73):
`.trim().toLowerCase().replace(/\s+/g, '').replace(/[^a-z0-9]/g, '')`. -/
def canonicalize (s : String) : String :=
  stripNonAlnum (stripWs (jsToLower (jsTrim s)))

/-- A normalized data row: field name to cell value, in JavaScript object
insertion order. -/
abbrev Record := List (String × String)

/-- The static rename table `headerMap` (script.js lines 38-51). -/
def headerMapPairs : List (String × String) :=
  [("name", "name"), ("age", "age"), ("gender", "gender"),
   ("dateofbirth", "dateofbirth"), ("contact", "contact"),
   ("systolicbp", "systolic"), ("diastolicbp", "diastolic"),
   ("spo2", "spo2"), ("heartrate", "heartrate"),
   ("temperature", "temperature"), ("results", "results"),
   ("doctor", "doctor")]

/-- Own-property lookup in the rename-table object literal: the twelve
keys the source text declares. Property access on the object also
consults the prototype chain; that step is modelled in `renameHeader`. -/
def headerMapLookup (h : String) : Option String :=
  List.lookup h headerMapPairs

/-- The string the inherited value `Object.prototype.constructor` (the
built-in `Object` constructor) coerces to when used as a property key:
`ToPropertyKey` applies `String` to the function, which every mainstream
engine renders as this NativeFunction source text. -/
def objectCtorKey : String := "function Object() \x7b [native code] \x7d"

/-- Model of `headerMap[h] || h` (script.js line 53) on the keys the
program can produce — images of `canonicalize`, that is strings of
lowercase ASCII letters and digits. The access `headerMap[h]` checks the
twelve own keys, then walks the prototype chain: the only
`Object.prototype` property whose name is such a string is
`constructor`, whose value is a truthy function, so `||` keeps it and it
string-coerces to `objectCtorKey` when later used as the record field
key. Every own value of the table is a non-empty string, so for the
remaining keys `||` falls through exactly when the key is absent. -/
def renameHeader (h : String) : String :=
  match headerMapLookup h with
  | some v => v
  | none => if h = "constructor" then objectCtorKey else h

/-- Model of `values[index] ? values[index].trim() : ''` (script.js
line 84): the trimmed cell at position `i`, or `""` when the row is
shorter (an in-range empty cell is falsy in JavaScript, and also trims
to `""`, so the two readings agree). -/
def cellAt (values : List String) (i : Nat) : String :=
  jsTrim (values.getD i "")

/-- Numeric value of a digit string. -/
def digitsVal (l : List Char) : Nat :=
  l.foldl (fun n c => 10 * n + (c.toNat - 48)) 0

/-- An ECMAScript array-index property key: the canonical base-10 numeral
of an integer below `2 ^ 32 - 1` (no leading zero except `"0"` itself).
Own-property enumeration (`Object.keys` / `values` / `entries`) lists
these keys first, in ascending numeric order, ahead of all other string
keys (OrdinaryOwnPropertyKeys). -/
def isArrayIndexKey (s : String) : Bool :=
  match s.toList with
  | [] => false
  | c :: cs =>
    (c :: cs).all Char.isDigit && (c != '0' || cs.isEmpty) &&
    digitsVal (c :: cs) < 4294967295

/-- Update the value of a key already present in the object, keeping its
enumeration position. -/
def objUpdate : Record → String → String → Record
  | [], k, v => [(k, v)]
  | (k', v') :: rest, k, v =>
    if k' = k then (k, v) :: rest else (k', v') :: objUpdate rest k v

/-- Place a new array-index key in the index segment of the object, in
ascending numeric order, ahead of every non-index key. -/
def objInsIdx : Record → String → String → Record
  | [], k, v => [(k, v)]
  | (k', v') :: rest, k, v =>
    if isArrayIndexKey k' && digitsVal k'.toList < digitsVal k.toList then
      (k', v') :: objInsIdx rest k v
    else (k, v) :: (k', v') :: rest

/-- Model of JavaScript property assignment `obj[header] = value` on a
plain object, with the entry list kept in own-property enumeration
order: assignment to an existing key updates it in place; a new
array-index key goes into the index segment in ascending numeric order,
ahead of all other keys; any other new key is appended at the end. -/
def objSet (obj : Record) (k : String) (v : String) : Record :=
  if k ∈ obj.map Prod.fst then objUpdate obj k v
  else if isArrayIndexKey k then objInsIdx obj k v
  else obj ++ [(k, v)]

/-- The `normalizedHeaders.forEach((header, index) => ...)` loop of
script.js lines 83-87, accumulating the object. -/
def buildRecordAux (values : List String) : List String → Nat → Record → Record
  | [], _, obj => obj
  | h :: hs, i, obj => buildRecordAux values hs (i + 1) (objSet obj h (cellAt values i))

/-- The record built from a data row (script.js lines 80-87). -/
def buildRecord (headers : List String) (values : List String) : Record :=
  buildRecordAux values headers 0 []

/-- The `isRowEmpty` flag of script.js lines 81-87: every value assigned
into the record (one per header position) is empty. -/
def rowAllEmpty (headers : List String) (values : List String) : Bool :=
  (List.range headers.length).all (fun i => cellAt values i == "")

/-- The fingerprint of a row (script.js lines 56-58 and 71-73): each cell
cleaned like a header cell, then concatenated with `join('')`. -/
def rowFingerprint (values : List String) : String :=
  String.join (values.map canonicalize)

/-- The non-blank lines of the input (script.js line 28):
`csvText.split('\n').filter(line => line.trim() !== '')`. -/
def linesOf (csvText : String) : List String :=
  (jsSplit csvText '\n').filter (fun line => jsTrim line != "")

/-- The raw header cells `lines[0].split(',')` (script.js line 32). -/
def rawHeadersOf (csvText : String) : List String :=
  jsSplit ((linesOf csvText).getD 0 "") ','

/-- The normalized header names (script.js lines 33-35 and 53). -/
def normHeadersOf (csvText : String) : List String :=
  ((rawHeadersOf csvText).map canonicalize).map renameHeader

/-- The header fingerprint (script.js lines 56-58). -/
def headerFpOf (csvText : String) : String :=
  rowFingerprint (rawHeadersOf csvText)

/-- One iteration of the data loop (script.js lines 62-90): `none` when the
row is skipped, `some` of the built record when it is pushed.

The skip condition `values.length < normalizedHeaders.length * 0.7` is
rendered as `10 * values.length < 7 * normalizedHeaders.length`, which is
exact 70%; the IEEE-double product the engine computes agrees with the
exact comparison on every feasible list length (`n * 0.7` errs from
`7n/10` by less than `n * 2 ^ (-53)`, far less than the distance from the
nearest integer for any length a string can realize). -/
def processRow (normalizedHeaders : List String) (headerFingerprint : String)
    (line : String) : Option Record :=
  let values := jsSplit line ','
  if 10 * values.length < 7 * normalizedHeaders.length then none
  else if values.all (fun v => jsTrim v == "") then none
  else if rowFingerprint values == headerFingerprint then none
  else if rowAllEmpty normalizedHeaders values then none
  else some (buildRecord normalizedHeaders values)

/-- Helper for `rowShaped`, walking the headers with their position. -/
def rowShapedAux (values : List String) : List String → Nat → Record
  | [], _ => []
  | h :: hs, i => (h, cellAt values i) :: rowShapedAux values hs (i + 1)

/-- Modelled from the spec (§3, invariant): the record shape the spec
describes for a data row, one field per header position in header order,
position `i` holding the trimmed `i`-th cell (empty string when the row
is shorter than the header). To be compared with `buildRecord`. -/
def rowShaped (headers values : List String) : Record :=
  rowShapedAux values headers 0

/-- The CSV normalizer `parseCSV` (script.js lines 27-93). -/
def parseCSV (csvText : String) : List Record :=
  if (linesOf csvText).length ≤ 1 then []
  else ((linesOf csvText).drop 1).filterMap
    (processRow (normHeadersOf csvText) (headerFpOf csvText))

/-- Decides whether `p` is an initial segment of `l`. -/
def isPrefixB : List Char → List Char → Bool
  | [], _ => true
  | _ :: _, [] => false
  | a :: as, b :: bs => a == b && isPrefixB as bs

/-- Decides whether `sub` occurs contiguously inside `l`. -/
def isSubstrB (sub : List Char) : List Char → Bool
  | [] => isPrefixB sub []
  | b :: bs => isPrefixB sub (b :: bs) || isSubstrB sub bs

/-- Model of `String.prototype.includes`: `jsIncludes s sub` holds when
`sub` occurs as a contiguous substring of `s`. -/
def jsIncludes (s : String) (sub : String) : Bool :=
  isSubstrB sub.toList s.toList

/-- The search filter `filterData` (script.js lines 220-227): keep the
records one of whose values, lowercased, contains the lowercased query. -/
def filterData (query : String) (data : List Record) : List Record :=
  data.filter (fun item =>
    (item.map Prod.snd).any (fun value => jsIncludes (jsToLower value) (jsToLower query)))

/-- Modelled from the spec (§6, search filter): a record matches a query
when at least one field value, lowercased, contains the lowercased query
as a contiguous substring. Boolean form. -/
def specMatchesB (query : String) (rec : Record) : Bool :=
  (rec.map Prod.snd).any (fun v => isSubstrB (jsToLower query).toList (jsToLower v).toList)

/-- Modelled from the spec (§6, search filter): the matching predicate as
a proposition, with substring containment spelled out as a context
decomposition. -/
def specMatches (query : String) (rec : Record) : Prop :=
  ∃ v ∈ rec.map Prod.snd,
    ∃ p s, p ++ (jsToLower query).toList ++ s = (jsToLower v).toList

/-- An HTTP response as `fetch` resolves it: the `ok` flag (`status` in
the 200-299 range), the status code, and the body text. -/
structure HttpResponse where
  ok : Bool
  status : Nat
  body : String
  deriving DecidableEq

/-- Outcome of one `fetch(url)` call: a resolved response, or a rejected
promise (network error). -/
inductive FetchResult where
  | success (response : HttpResponse)
  | networkError
  deriving DecidableEq

/-- A fetch that failed: a network error, or a response whose `ok` flag is
false (the `if (!response.ok) throw` guard of script.js line 102). -/
def fetchFailed : FetchResult → Bool
  | .success r => !r.ok
  | .networkError => true

/-- Model of `fetchData` (script.js lines 96-109). The first component is
the returned dataset; the second records whether `parseCSV` was invoked on
the response. A network error or a non-OK status lands in the `catch`
branch, which returns `[]` without parsing. -/
def fetchData : FetchResult → List Record × Bool
  | .success r => if r.ok then (parseCSV r.body, true) else ([], false)
  | .networkError => ([], false)

/-- The module-level dataset state (script.js lines 8-9). -/
structure AppState where
  doctorsData : List Record
  databaseData : List Record
  deriving DecidableEq

/-- Model of the data-loading part of `fetchAndLoadData` (script.js lines
111-124): both fetch results are assigned into the state unconditionally,
replacing whatever `prior` held. -/
def fetchAndLoadData (_prior : AppState) (doctorsResult databaseResult : FetchResult) :
    AppState :=
  ⟨(fetchData doctorsResult).1, (fetchData databaseResult).1⟩

/-! ### Helper lemmas -/

theorem parseCSV_of_short {csvText : String} (h : (linesOf csvText).length ≤ 1) :
    parseCSV csvText = [] := by
  simp [parseCSV, h]

theorem parseCSV_of_long {csvText : String} (h : 1 < (linesOf csvText).length) :
    parseCSV csvText = ((linesOf csvText).drop 1).filterMap
      (processRow (normHeadersOf csvText) (headerFpOf csvText)) := by
  rw [parseCSV, if_neg (by omega)]

theorem processRow_eq_none_of_fp {hs : List String} {fp : String} {line : String}
    (h : rowFingerprint (jsSplit line ',') = fp) :
    processRow hs fp line = none := by
  simp only [processRow]
  split_ifs with h1 h2 h3 h4
  · rfl
  · rfl
  · rfl
  · exact absurd (beq_iff_eq.mpr h) (by simpa using h3)
  · exact absurd (beq_iff_eq.mpr h) (by simpa using h3)

theorem processRow_eq_none_of_skip {hs : List String} {fp : String} {line : String}
    (h : 10 * (jsSplit line ',').length < 7 * hs.length ∨
      ∀ v ∈ jsSplit line ',', jsTrim v = "") :
    processRow hs fp line = none := by
  simp only [processRow]
  split_ifs with h1 h2 h3 h4
  · rfl
  · rfl
  · rfl
  · rfl
  · rcases h with h | h
    · exact absurd h h1
    · exact absurd (by simpa [List.all_eq_true] using h) h2

theorem processRow_eq_some {hs : List String} {fp : String} {line : String}
    {rec : Record} (h : processRow hs fp line = some rec) :
    rec = buildRecord hs (jsSplit line ',') := by
  simp only [processRow] at h
  split_ifs at h
  exact (Option.some_inj.mp h).symm

theorem filterMap_eq_filterMap_filter {α β : Type} (f : α → Option β) (p : α → Bool) :
    ∀ l : List α, (∀ x ∈ l, p x = false → f x = none) →
      l.filterMap f = (l.filter p).filterMap f
  | [], _ => rfl
  | x :: xs, h => by
    have ih := filterMap_eq_filterMap_filter f p xs
      (fun y hy => h y (List.mem_cons_of_mem x hy))
    cases hp : p x with
    | true => simp [List.filterMap_cons, List.filter_cons, hp, ih]
    | false =>
      simp [List.filterMap_cons, List.filter_cons, hp,
        h x (List.mem_cons_self x xs) hp, ih]

theorem objSet_of_not_mem {k v : String} {obj : Record}
    (hmem : k ∉ obj.map Prod.fst) (hidx : isArrayIndexKey k = false) :
    objSet obj k v = obj ++ [(k, v)] := by
  simp [objSet, hmem, hidx]

theorem buildRecordAux_eq (values : List String) :
    ∀ (hs : List String) (i : Nat) (obj : Record), hs.Nodup →
      (∀ h ∈ hs, h ∉ obj.map Prod.fst) →
      (∀ h ∈ hs, isArrayIndexKey h = false) →
      buildRecordAux values hs i obj = obj ++ rowShapedAux values hs i
  | [], _, obj, _, _, _ => by simp [buildRecordAux, rowShapedAux]
  | h :: hs, i, obj, hnd, hdisj, hidx => by
    have hnotin : h ∉ obj.map Prod.fst := hdisj h (List.mem_cons_self h hs)
    have hset : objSet obj h (cellAt values i) = obj ++ [(h, cellAt values i)] :=
      objSet_of_not_mem hnotin (hidx h (List.mem_cons_self h hs))
    have hnd' : hs.Nodup := (List.nodup_cons.mp hnd).2
    have hdisj' : ∀ h' ∈ hs, h' ∉ (obj ++ [(h, cellAt values i)]).map Prod.fst := by
      intro h' hh' hmem
      simp only [List.map_append, List.mem_append] at hmem
      rcases hmem with hc | hc
      · exact hdisj h' (List.mem_cons_of_mem h hh') hc
      · have : h' = h := by simpa using hc
        exact (List.nodup_cons.mp hnd).1 (this ▸ hh')
    have hidx' : ∀ h' ∈ hs, isArrayIndexKey h' = false :=
      fun h' hh' => hidx h' (List.mem_cons_of_mem h hh')
    calc buildRecordAux values (h :: hs) i obj
      = buildRecordAux values hs (i + 1) (objSet obj h (cellAt values i)) := rfl
    _ = (obj ++ [(h, cellAt values i)]) ++ rowShapedAux values hs (i + 1) := by
        rw [hset] at *
        exact buildRecordAux_eq values hs (i + 1) _ hnd' hdisj' hidx'
    _ = obj ++ rowShapedAux values (h :: hs) i := by
        simp [rowShapedAux]

theorem buildRecord_eq_rowShaped {hs values : List String} (hnd : hs.Nodup)
    (hidx : ∀ h ∈ hs, isArrayIndexKey h = false) :
    buildRecord hs values = rowShaped hs values := by
  simpa using buildRecordAux_eq values hs 0 [] hnd (by simp) hidx

theorem isPrefixB_iff : ∀ (p l : List Char), isPrefixB p l = true ↔ ∃ t, p ++ t = l
  | [], l => by simp [isPrefixB]
  | a :: as, [] => by simp [isPrefixB]
  | a :: as, b :: bs => by
    simp only [isPrefixB, Bool.and_eq_true, beq_iff_eq, isPrefixB_iff as bs]
    constructor
    · rintro ⟨rfl, t, rfl⟩
      exact ⟨t, rfl⟩
    · rintro ⟨t, ht⟩
      injection ht with h1 h2
      exact ⟨h1, t, h2⟩

theorem isSubstrB_iff (sub : List Char) :
    ∀ l : List Char, isSubstrB sub l = true ↔ ∃ p s, p ++ sub ++ s = l
  | [] => by
    simp only [isSubstrB, isPrefixB_iff]
    constructor
    · rintro ⟨t, ht⟩
      exact ⟨[], t, ht⟩
    · rintro ⟨p, s, hps⟩
      rcases List.append_eq_nil.mp (List.append_eq_nil.mp hps).1 with ⟨rfl, rfl⟩
      exact ⟨s, hps⟩
  | b :: bs => by
    simp only [isSubstrB, Bool.or_eq_true, isPrefixB_iff, isSubstrB_iff sub bs]
    constructor
    · rintro (⟨t, ht⟩ | ⟨p, s, hps⟩)
      · exact ⟨[], t, by simpa using ht⟩
      · exact ⟨b :: p, s, by simp [hps]⟩
    · rintro ⟨p, s, hps⟩
      cases p with
      | nil => exact Or.inl ⟨s, by simpa using hps⟩
      | cons c cs =>
        injection hps with h1 h2
        exact Or.inr ⟨cs, s, h2⟩

theorem lookup_eq_none_of_not_mem {k : String} :
    ∀ {l : List (String × String)}, k ∉ l.map Prod.fst → List.lookup k l = none
  | [], _ => rfl
  | (a, b) :: rest, h => by
    have hne : k ≠ a := by
      intro hk
      exact h (by simp [hk])
    have hrest : k ∉ rest.map Prod.fst := by
      intro hk
      exact h (by simp [hk])
    simp [List.lookup, beq_false_of_ne hne, lookup_eq_none_of_not_mem hrest]

theorem isSubstrB_nil : ∀ l : List Char, isSubstrB [] l = true
  | [] => rfl
  | _ :: _ => by simp [isSubstrB, isPrefixB]

/-! ### Claims -/

/-- C1, counterexample: after a failing fetch the caller does not retain the
previously loaded dataset — with a prior doctors dataset of one record and a
network error on both URLs, `fetchAndLoadData` leaves `doctorsData` empty
rather than unchanged. -/
theorem C1_counterexample :
    fetchFailed FetchResult.networkError = true ∧
    ¬ (fetchAndLoadData ⟨[[("name", "Alice")]], []⟩ FetchResult.networkError
        FetchResult.networkError).doctorsData = [[("name", "Alice")]] := by
  decide

/-- C1 (amended): when a fetch fails (network error or non-OK HTTP status),
the CSV normalizer is never invoked on that response and `fetchData`
returns the empty list, which `fetchAndLoadData` stores in place of the
previously loaded dataset. -/
theorem C1_failed_fetch_yields_empty_dataset (prior : AppState)
    (r other : FetchResult) (h : fetchFailed r = true) :
    fetchData r = ([], false) ∧
    (fetchAndLoadData prior r other).doctorsData = [] ∧
    (fetchAndLoadData prior other r).databaseData = [] := by
  have hdata : fetchData r = ([], false) := by
    cases r with
    | networkError => rfl
    | success resp =>
      have hok : resp.ok = false := by simpa [fetchFailed] using h
      simp [fetchData, hok]
  exact ⟨hdata, by simp [fetchAndLoadData, hdata], by simp [fetchAndLoadData, hdata]⟩

/-- C1, witness: the amended statement at a network error with a non-empty
prior dataset. -/
theorem C1_witness :
    fetchFailed FetchResult.networkError = true ∧
    fetchData FetchResult.networkError = ([], false) ∧
    (fetchAndLoadData ⟨[[("name", "Alice")]], []⟩ FetchResult.networkError
      FetchResult.networkError).doctorsData = [] ∧
    (fetchAndLoadData ⟨[[("name", "Alice")]], []⟩ FetchResult.networkError
      FetchResult.networkError).databaseData = [] :=
  ⟨by decide, C1_failed_fetch_yields_empty_dataset ⟨[[("name", "Alice")]], []⟩
    FetchResult.networkError FetchResult.networkError (by decide)⟩

/-- C2, counterexample: records do not always assign a value to every
normalized-header position. In `"Name,Name\nAlice,Bob"` both header cells
normalize to `"name"`, and the single output record is
`[("name", "Bob")]` — one field for two header positions, equal to no
per-position row of the input. -/
theorem C2_counterexample :
    ¬ (∀ rec ∈ parseCSV "Name,Name\nAlice,Bob",
        ∃ line ∈ (linesOf "Name,Name\nAlice,Bob").drop 1,
          rec = rowShaped (normHeadersOf "Name,Name\nAlice,Bob") (jsSplit line ',')) := by
  decide

/-- C2 (amended): when the normalized headers are pairwise distinct and
none of them is an array-index string (a canonical numeral below
`2 ^ 32 - 1`, which own-property enumeration would move ahead of the
other keys), every record in `parseCSV`'s output is the per-position
record of one of the input's data lines: in header order, position `i`
names the `i`-th normalized header and holds the trimmed `i`-th cell of
that line, or the empty string when the line has fewer cells. -/
theorem C2_record_shape (input : String) (hnd : (normHeadersOf input).Nodup)
    (hidx : ∀ h ∈ normHeadersOf input, isArrayIndexKey h = false) :
    ∀ rec ∈ parseCSV input,
      ∃ line ∈ (linesOf input).drop 1,
        rec = rowShaped (normHeadersOf input) (jsSplit line ',') := by
  intro rec hrec
  by_cases hlen : (linesOf input).length ≤ 1
  · rw [parseCSV_of_short hlen] at hrec
    exact absurd hrec (List.not_mem_nil rec)
  · rw [parseCSV_of_long (by omega)] at hrec
    rcases List.mem_filterMap.mp hrec with ⟨line, hline, hsome⟩
    refine ⟨line, hline, ?_⟩
    rw [processRow_eq_some hsome]
    exact buildRecord_eq_rowShaped hnd hidx

/-- C2, witness: the amended statement at `"Name,Age\nAlice,30"`, whose
normalized headers `["name", "age"]` are distinct and not array
indexes. -/
theorem C2_witness :
    ((normHeadersOf "Name,Age\nAlice,30").Nodup ∧
      ∀ h ∈ normHeadersOf "Name,Age\nAlice,30", isArrayIndexKey h = false) ∧
    ∀ rec ∈ parseCSV "Name,Age\nAlice,30",
      ∃ line ∈ (linesOf "Name,Age\nAlice,30").drop 1,
        rec = rowShaped (normHeadersOf "Name,Age\nAlice,30") (jsSplit line ',') :=
  ⟨⟨by decide, by decide⟩, C2_record_shape "Name,Age\nAlice,30" (by decide) (by decide)⟩

/-- C3: a data row whose cells, canonicalized and concatenated, equal the
canonicalized header concatenation is excluded from the output — deleting
all such rows from the data lines leaves `parseCSV` unchanged — and the
repeated-header scenario `"Name,Age\nName,Age\nAlice,30"` yields exactly
one record. -/
theorem C3_duplicate_header_rows_excluded :
    (∀ input : String, parseCSV input =
      (((linesOf input).drop 1).filter
          (fun line => rowFingerprint (jsSplit line ',') != headerFpOf input)).filterMap
        (processRow (normHeadersOf input) (headerFpOf input))) ∧
    parseCSV "Name,Age\nName,Age\nAlice,30" = [[("name", "Alice"), ("age", "30")]] := by
  constructor
  · intro input
    by_cases hlen : (linesOf input).length ≤ 1
    · have hnil : (linesOf input).drop 1 = [] := by
        apply List.eq_nil_of_length_eq_zero
        simp [List.length_drop]
        omega
      rw [parseCSV_of_short hlen, hnil]
      rfl
    · rw [parseCSV_of_long (by omega)]
      refine filterMap_eq_filterMap_filter _ _ _ ?_
      intro line _ hfp
      refine processRow_eq_none_of_fp ?_
      simpa using hfp
  · decide

/-- C4: a data line contributes no record when its comma-split cell count
is below 70% of the header count or all its cells are blank after
trimming; the 2-of-3-columns scenario and the all-blank-row scenario both
produce empty outputs. -/
theorem C4_short_or_blank_rows_skipped :
    (∀ input line : String, line ∈ (linesOf input).drop 1 →
      (10 * (jsSplit line ',').length < 7 * (normHeadersOf input).length ∨
        ∀ v ∈ jsSplit line ',', jsTrim v = "") →
      processRow (normHeadersOf input) (headerFpOf input) line = none) ∧
    parseCSV "Name,Age,Gender\nAlice,30" = [] ∧
    parseCSV "Name,Age\n,\n" = [] := by
  refine ⟨?_, by decide, by decide⟩
  intro input line _ h
  exact processRow_eq_none_of_skip h

/-- C4, witness: the line `"Alice,30"` under the three-column header of
`"Name,Age,Gender\nAlice,30"` (2 cells against 3 headers, 67% < 70%)
contributes no record. -/
theorem C4_witness :
    processRow (normHeadersOf "Name,Age,Gender\nAlice,30")
      (headerFpOf "Name,Age,Gender\nAlice,30") "Alice,30" = none :=
  C4_short_or_blank_rows_skipped.1 "Name,Age,Gender\nAlice,30" "Alice,30"
    (by decide) (Or.inl (by decide))

/-- C5: an input with fewer than two lines that are non-empty after
trimming parses to the empty sequence. -/
theorem C5_too_few_lines (input : String) (h : (linesOf input).length < 2) :
    parseCSV input = [] :=
  parseCSV_of_short (by omega)

/-- C5, witness: the empty string has no non-blank lines and parses to the
empty sequence. -/
theorem C5_witness : (linesOf "").length < 2 ∧ parseCSV "" = [] :=
  ⟨by decide, C5_too_few_lines "" (by decide)⟩

/-- C6, counterexample: on the empty input there are zero non-blank lines,
and the output length 0 is not at most 0 − 1. -/
theorem C6_counterexample :
    ¬ (((parseCSV "").length : ℤ) ≤ ((linesOf "").length : ℤ) - 1) := by
  decide

/-- C6 (amended): the output length is at most
`max (nonBlankLineCount − 1) 0`; equivalently, the claimed
`nonBlankLineCount − 1` bound holds whenever at least one non-blank line
exists, and the output is empty when there is none. -/
theorem C6_row_count_bound (input : String) :
    ((parseCSV input).length : ℤ) ≤ max (((linesOf input).length : ℤ) - 1) 0 := by
  by_cases hlen : (linesOf input).length ≤ 1
  · rw [parseCSV_of_short hlen]
    exact le_max_right (((linesOf input).length : ℤ) - 1) 0
  · rw [parseCSV_of_long (by omega)]
    refine le_trans ?_ (le_max_left _ _)
    have hle := List.length_filterMap_le
      (processRow (normHeadersOf input) (headerFpOf input)) ((linesOf input).drop 1)
    rw [List.length_drop] at hle
    omega

/-- C7, counterexample: the header cell `"Constructor"` canonicalizes to
`"constructor"`, which is not one of the twelve rename-table keys, yet it
does not pass through unchanged: `headerMap["constructor"]` resolves
through the prototype chain to the inherited, truthy
`Object.prototype.constructor`, so the field name becomes that function's
string coercion instead of `"constructor"`. -/
theorem C7_counterexample :
    canonicalize "Constructor" ∉ headerMapPairs.map Prod.fst ∧
    renameHeader (canonicalize "Constructor") ≠ canonicalize "Constructor" := by
  decide

/-- C7 (amended): a raw header cell whose canonical form is neither one of
the twelve rename-table keys nor the inherited property name
`"constructor"` is used as a field name exactly as its canonical form. -/
theorem C7_unmapped_headers_pass_through (cell : String)
    (h1 : canonicalize cell ∉ headerMapPairs.map Prod.fst)
    (h2 : canonicalize cell ≠ "constructor") :
    renameHeader (canonicalize cell) = canonicalize cell := by
  have hnone : headerMapLookup (canonicalize cell) = none :=
    lookup_eq_none_of_not_mem h1
  simp [renameHeader, hnone, h2]

/-- C7, witness: `"Blood Pressure"` canonicalizes to `"bloodpressure"`,
which is neither a rename-table key nor `"constructor"`, and passes
through unchanged. -/
theorem C7_witness :
    (canonicalize "Blood Pressure" ∉ headerMapPairs.map Prod.fst ∧
      canonicalize "Blood Pressure" ≠ "constructor") ∧
    renameHeader (canonicalize "Blood Pressure") = canonicalize "Blood Pressure" :=
  ⟨⟨by decide, by decide⟩,
    C7_unmapped_headers_pass_through "Blood Pressure" (by decide) (by decide)⟩

/-- C8: the header cells `"Systolic BP"` and `"Diastolic BP"` normalize to
the field names `"systolic"` and `"diastolic"`, and records built under
these headers use those keys. -/
theorem C8_bp_header_renames :
    renameHeader (canonicalize "Systolic BP") = "systolic" ∧
    renameHeader (canonicalize "Diastolic BP") = "diastolic" ∧
    parseCSV "Systolic BP,Diastolic BP\n120,80" =
      [[("systolic", "120"), ("diastolic", "80")]] := by
  decide

/-- C9: `filterData` returns exactly the order-preserving filter of the
input records, keeping a record precisely when some field value,
lowercased, contains the lowercased query as a contiguous substring. -/
theorem C9_filter_characterization (query : String) (data : List Record) :
    filterData query data = data.filter (specMatchesB query) ∧
    (filterData query data).Sublist data ∧
    (∀ rec : Record, specMatchesB query rec = true ↔ specMatches query rec) := by
  refine ⟨rfl, List.filter_sublist data, ?_⟩
  intro rec
  simp only [specMatchesB, List.any_eq_true, specMatches, isSubstrB_iff]

/-- C10: with the empty query, `filterData` keeps every record that has at
least one field, so clearing the search box restores the full dataset. -/
theorem C10_empty_query_identity (data : List Record)
    (h : ∀ rec ∈ data, rec ≠ []) :
    filterData "" data = data := by
  rw [filterData]
  refine List.filter_eq_self.mpr ?_
  intro rec hrec
  cases hr : rec with
  | nil => exact absurd hr (h rec hrec)
  | cons kv rest =>
    have hempty : (jsToLower "").data = [] := rfl
    simp [jsIncludes, hempty, isSubstrB_nil]

/-- C10, witness: a one-record dataset with one field is returned whole by
the empty query. -/
theorem C10_witness :
    (∀ rec ∈ ([[("name", "Alice")]] : List Record), rec ≠ []) ∧
    filterData "" [[("name", "Alice")]] = [[("name", "Alice")]] :=
  ⟨by decide, C10_empty_query_identity [[("name", "Alice")]] (by decide)⟩

end Diagnosys
